import Mathlib

/-!
Verification development for the Tbox repository.

The definitions below are a shallow embedding of the link-resolution core in
`terabox_downloader.py` (class `TeraboxDownloader`) and of the size gate in
`bot.py` (`handle_link`).  Python dictionaries returned by the extraction
helpers are modelled by the structure `FileInfo` whose fields are `Option Json`
(`none` = key absent, `some .jnull` = key present with value `None`).  The
regular expressions used by the source are hand-translated into explicit
matching functions over `List Char`; each matcher is annotated with the regex
it embeds.  HTTP traffic is modelled by an explicit environment `Net` mapping
the index of each GET (resp. HEAD) request issued during one call to its
outcome, so the number of network requests performed is observable.
-/

namespace Tbox

/-- JSON / Python values as they flow through the resolver.  `jnull` doubles as
Python `None` (which is exactly what `json.loads` produces for `null`). -/
inductive Json where
  | jnull
  | jbool (b : Bool)
  | jnum (n : Int)
  | jstr (s : String)
  | jarr (xs : List Json)
  | jobj (kvs : List (String × Json))

/-- The dictionary built by the extraction helpers.  Fields correspond to the
string keys used in `terabox_downloader.py`; a field is `none` when the key is
absent from the dictionary. -/
structure FileInfo where
  filename : Option Json := none
  size : Option Json := none
  description : Option Json := none
  direct_url : Option Json := none
  url : Option Json := none
  md5 : Option Json := none

/-- The single-quote character (written via its code point to keep source
clean). -/
def squote : Char := Char.ofNat 39

def lbrace : Char := Char.ofNat 123

def rbrace : Char := Char.ofNat 125

/-- Quote class of the regexes, i.e. the character class ["'] . -/
def isQuote (c : Char) : Bool := c == '"' || c == squote

/-- Python regex \s for the ASCII fragment: space, tab, newline, CR, FF, VT. -/
def wsRe (c : Char) : Bool :=
  [' ', '\t', '\n', Char.ofNat 13, Char.ofNat 12, Char.ofNat 11].any (fun w => w == c)

/-- JSON whitespace accepted by `json.loads` between tokens. -/
def jsonWs (c : Char) : Bool :=
  [' ', '\t', '\n', Char.ofNat 13].any (fun w => w == c)

/-- Python whitespace stripped by `str.strip()` (ASCII fragment). -/
def pyWs (c : Char) : Bool := wsRe c

/-- Does `hay` start with `pat`?  `ci` selects case-insensitive comparison
(ASCII lowering), used for regexes compiled with `re.IGNORECASE`. -/
def startsWithL : (hay pat : List Char) → (ci : Bool) → Bool
  | _, [], _ => true
  | [], _ :: _, _ => false
  | h :: hs, p :: ps, ci =>
    (if ci then h.toLower == p.toLower else h == p) && startsWithL hs ps ci

/-- Substring containment (Python `pat in hay`), case sensitive. -/
def containsL : (hay pat : List Char) → Bool
  | [], pat => pat.isEmpty
  | l@(_ :: t), pat => startsWithL l pat false || containsL t pat

/-- Python `hay.endswith (pat)`. -/
def endsWithL (hay pat : List Char) : Bool :=
  if pat.length ≤ hay.length then hay.drop (hay.length - pat.length) == pat else false

def strContains (s pat : String) : Bool := containsL s.toList pat.toList

def strEndsWith (s pat : String) : Bool := endsWithL s.toList pat.toList

/-- Python `str.lower()` (ASCII fragment). -/
def strLower (s : String) : String := String.mk (s.toList.map Char.toLower)

/-- Python `str.strip()` (ASCII whitespace fragment). -/
def pyStrip (s : String) : String :=
  String.mk (((s.toList.dropWhile pyWs).reverse.dropWhile pyWs).reverse)

def hexVal (c : Char) : Option Nat :=
  if '0' ≤ c ∧ c ≤ '9' then some (c.toNat - 48)
  else if 'a' ≤ c ∧ c ≤ 'f' then some (c.toNat - 87)
  else if 'A' ≤ c ∧ c ≤ 'F' then some (c.toNat - 70)
  else none

/-- `urllib.parse.unquote`, modelled for the ASCII fragment: a `%XX` escape
with `XX` a hex value below 0x80 decodes to that character, an invalid escape
is left verbatim (as in Python); multi-byte UTF-8 escape sequences are outside
the modelled fragment. -/
def unqChars : List Char → List Char
  | [] => []
  | '%' :: a :: b :: r =>
    match hexVal a, hexVal b with
    | some ha, some hb =>
      if ha * 16 + hb < 128 then Char.ofNat (ha * 16 + hb) :: unqChars r
      else Char.ofNat 0xfffd :: unqChars r
    | _, _ => '%' :: unqChars (a :: b :: r)
  | c :: r => c :: unqChars r

def pyUnquote (s : String) : String := String.mk (unqChars s.toList)

/-- Digits-to-number (Python `int` on a `\d+` capture). -/
def digitsToNat (ds : List Char) : Nat :=
  ds.foldl (fun n c => n * 10 + (c.toNat - 48)) 0

/-- Characters allowed in a URL scheme after the first letter
(`urllib.parse.scheme_chars`). -/
def schemeChar (c : Char) : Bool :=
  c.isAlpha || c.isDigit || c == '+' || c == '-' || c == '.'

/-- `urllib.parse.urlparse`, modelled down to the two components the classifier
reads: `netloc` and `path`.  Faithful to CPython's `urlsplit` for inputs
without embedded tab/newline characters: an optional `scheme:` prefix is
stripped when the text before the first colon is a valid scheme; a netloc is
present only after `//` and extends to the first `/`, `?` or `#`; a netloc
containing an unbalanced square bracket raises `ValueError` (modelled as
`.error ()`), which is the parse failure the source catches. -/
def pyUrlparse (s : String) : Except Unit (String × String) :=
  let cs0 := s.toList
  let cs :=
    match cs0.findIdx? (fun c => c == ':') with
    | some i =>
      if 0 < i ∧ (cs0.headD ' ').isAlpha ∧ ((cs0.take i).drop 1).all schemeChar
      then cs0.drop (i + 1) else cs0
    | none => cs0
  if startsWithL cs ['/', '/'] false then
    let after := cs.drop 2
    let netloc := after.takeWhile (fun c => c ≠ '/' ∧ c ≠ '?' ∧ c ≠ '#')
    if (netloc.any (fun c => c == '[')) != (netloc.any (fun c => c == ']')) then
      .error ()
    else
      let path := (after.drop netloc.length).takeWhile (fun c => c ≠ '?' ∧ c ≠ '#')
      .ok (String.mk netloc, String.mk path)
  else
    .ok ("", String.mk (cs.takeWhile (fun c => c ≠ '?' ∧ c ≠ '#')))

/-- Escape decoding inside JSON strings (the simple escapes; `\uXXXX` is
outside the modelled fragment). -/
def jsonEscape (c : Char) : Option Char :=
  List.lookup c
    [('"', '"'), ('\\', '\\'), ('/', '/'), ('b', Char.ofNat 8), ('f', Char.ofNat 12),
     ('n', '\n'), ('r', Char.ofNat 13), ('t', '\t')]

/-- JSON string body after the opening quote; strict like `json.loads`:
unescaped control characters are rejected. -/
def jStringBody : List Char → List Char → Option (String × List Char)
  | acc, '"' :: r => some (String.mk acc.reverse, r)
  | acc, '\\' :: e :: r =>
    match jsonEscape e with
    | some c => jStringBody (c :: acc) r
    | none => none
  | acc, c :: r => if c.toNat < 32 then none else jStringBody (c :: acc) r
  | _, [] => none

/-- Magnitude part of a JSON integer literal: digits with no leading zero
before further digits; a following `.`, `e` or `E` (floats) is outside the
modelled fragment. -/
def jNumMag (cs1 : List Char) : Option (Int × List Char) :=
  let ds := cs1.takeWhile Char.isDigit
  let rest := cs1.drop ds.length
  if ds.isEmpty then none
  else if ds.length > 1 ∧ ds.headD '0' == '0' then none
  else
    match rest with
    | '.' :: _ => none
    | 'e' :: _ => none
    | 'E' :: _ => none
    | _ => some (Int.ofNat (digitsToNat ds), rest)

/-- Integer literal: optional minus, then the magnitude. -/
def jNumberTok (cs : List Char) : Option (Int × List Char) :=
  match cs with
  | '-' :: r => (jNumMag r).map (fun p => (-p.1, p.2))
  | _ => jNumMag cs

mutual

/-- One JSON value (recursive descent, fuel-bounded; `json.loads` fragment:
null, booleans, integers, strings, arrays, objects). -/
def jValue : Nat → List Char → Option (Json × List Char)
  | 0, _ => none
  | fuel + 1, cs =>
    let cs := cs.dropWhile jsonWs
    match cs with
    | [] => none
    | c :: rest =>
      if c == '"' then (jStringBody [] rest).map (fun p => (.jstr p.1, p.2))
      else if c == lbrace then
        match (rest.dropWhile jsonWs) with
        | c2 :: r2 =>
          if c2 == rbrace then some (.jobj [], r2)
          else (jMembers fuel (rest.dropWhile jsonWs)).map (fun p => (.jobj p.1, p.2))
        | [] => none
      else if c == '[' then
        match (rest.dropWhile jsonWs) with
        | c2 :: r2 =>
          if c2 == ']' then some (.jarr [], r2)
          else (jItems fuel (rest.dropWhile jsonWs)).map (fun p => (.jarr p.1, p.2))
        | [] => none
      else if startsWithL cs ['t','r','u','e'] false then some (.jbool true, cs.drop 4)
      else if startsWithL cs ['f','a','l','s','e'] false then some (.jbool false, cs.drop 5)
      else if startsWithL cs ['n','u','l','l'] false then some (.jnull, cs.drop 4)
      else (jNumberTok cs).map (fun p => (.jnum p.1, p.2))

/-- Non-empty member list of an object, up to and including the closing
brace. -/
def jMembers : Nat → List Char → Option (List (String × Json) × List Char)
  | 0, _ => none
  | fuel + 1, cs =>
    let cs := cs.dropWhile jsonWs
    match cs with
    | '"' :: r =>
      match jStringBody [] r with
      | none => none
      | some (k, r1) =>
        match (r1.dropWhile jsonWs) with
        | ':' :: r2 =>
          match jValue fuel r2 with
          | none => none
          | some (v, r3) =>
            match (r3.dropWhile jsonWs) with
            | ',' :: r4 =>
              (jMembers fuel r4).map (fun p => ((k, v) :: p.1, p.2))
            | c :: r4 =>
              if c == rbrace then some ([(k, v)], r4) else none
            | [] => none
        | _ => none
    | _ => none

/-- Non-empty item list of an array, up to and including the closing
bracket. -/
def jItems : Nat → List Char → Option (List Json × List Char)
  | 0, _ => none
  | fuel + 1, cs =>
    match jValue fuel cs with
    | none => none
    | some (v, r) =>
      match (r.dropWhile jsonWs) with
      | ',' :: r2 => (jItems fuel r2).map (fun p => (v :: p.1, p.2))
      | ']' :: r2 => some ([v], r2)
      | _ => none

end

/-- `json.loads`: the whole input must be consumed up to trailing
whitespace. -/
def parseJson (s : String) : Option Json :=
  match jValue (s.length + 1) s.toList with
  | some (v, rest) => if (rest.dropWhile jsonWs).isEmpty then some v else none
  | none => none

/-- Last-wins lookup in a parsed JSON object (the semantics of `json.loads`
for duplicate keys, and of `dict.get` afterwards). -/
def objGetD (kvs : List (String × Json)) (k : String) (dflt : Json) : Json :=
  (kvs.foldl (fun acc kv => if kv.1 == k then some kv.2 else acc) none).getD dflt

def objHasKey (kvs : List (String × Json)) (k : String) : Bool :=
  kvs.any (fun kv => kv.1 == k)

/-- The allow-list of `is_valid_terabox_url` (source lines 166-167). -/
def validDomains : List String :=
  ["terabox.com", "www.terabox.com", "terabox.app", "dubox.com", "www.dubox.com"]

/-- Embedding of `TeraboxDownloader.is_valid_terabox_url` (lines 159-178).
The source lowercases `parsed.netloc`, accepts any netloc that merely *ends
with* one of the allow-listed domains (`str.endswith`), then requires the path
to contain the substring "/s/" or "/sharing/"; every failure, including a
`ValueError` from `urlparse`, yields `False`. -/
def is_valid_terabox_url (url : String) : Bool :=
  match pyUrlparse url with
  | .error _ => false
  | .ok (netloc, path) =>
    let domain := strLower netloc
    if validDomains.any (fun d => strEndsWith domain d) then
      strContains path "/s/" || strContains path "/sharing/"
    else false

/-! ### Regex matchers

Each function below is the hand-translation of one regular expression from
`terabox_downloader.py`.  Greedy character-class runs such as `[^>]*` and
`[^<]+` are translated by `takeWhile`; where the regex
engine's backtracking could select among several occurrences, the translation
enumerates candidate offsets in the greedy (rightmost-first) order. -/

/-- Does this suffix begin with `type=["']application/ld\+json["']`
(case-insensitively)?  Part of the JSON-LD script pattern. -/
def typeLdAt (cs : List Char) : Bool :=
  startsWithL cs "type=".toList true &&
  (match cs.drop 5 with
   | q :: r =>
     isQuote q && startsWithL r "application/ld+json".toList true &&
     (match r.drop 19 with
      | q2 :: _ => isQuote q2
      | [] => false)
   | [] => false)

def containsTypeLd : List Char → Bool
  | [] => false
  | l@(_ :: t) => typeLdAt l || containsTypeLd t

/-- Match of
`<script[^>]*type=["']application/ld\+json["'][^>]*>([^<]+)</script>`
(re.IGNORECASE) anchored at the head of `cs`.  Since every piece between
`<script` and `>` excludes `>`, the match succeeds exactly when the `>`-free
span after `<script` contains the `type=...` literal; the capture is the
non-empty `<`-free run after that first `>`, which must be followed by
`</script>`.  Returns the capture and the rest of the input after the
match. -/
def jsonLdAt (cs : List Char) : Option (String × List Char) :=
  if startsWithL cs "<script".toList true then
    let rest0 := cs.drop 7
    let s1 := rest0.takeWhile (fun c => c ≠ '>')
    match rest0.drop s1.length with
    | '>' :: r2 =>
      if containsTypeLd s1 then
        let cap := r2.takeWhile (fun c => c ≠ '<')
        let r3 := r2.drop cap.length
        if cap.isEmpty then none
        else if startsWithL r3 "</script>".toList true then
          some (String.mk cap, r3.drop 9)
        else none
      else none
    | _ => none
  else none

/-- `re.findall` driver: scan left to right, collect non-overlapping matches,
resuming after each match. -/
def findallWith (f : List Char → Option (String × List Char)) :
    Nat → List Char → List String
  | 0, _ => []
  | _, [] => []
  | fuel + 1, l@(_ :: t) =>
    match f l with
    | some (cap, rest) => cap :: findallWith f fuel rest
    | none => findallWith f fuel t

/-- `re.search` driver: first position (left to right) where the anchored
matcher succeeds. -/
def searchWith (f : List Char → Option String) : Nat → List Char → Option String
  | 0, _ => none
  | _, [] => none
  | fuel + 1, l@(_ :: t) =>
    match f l with
    | some cap => some cap
    | none => searchWith f fuel t

/-- Does this suffix begin with `property=["']og:title["']` (case
sensitive)? -/
def propOgAt (cs : List Char) : Bool :=
  startsWithL cs "property=".toList false &&
  (match cs.drop 9 with
   | q :: r =>
     isQuote q && startsWithL r "og:title".toList false &&
     (match r.drop 8 with
      | q2 :: _ => isQuote q2
      | [] => false)
   | [] => false)

/-- Does this suffix begin with `content=["']`? -/
def contentQAt (cs : List Char) : Bool :=
  startsWithL cs "content=".toList false &&
  (match cs.drop 8 with
   | q :: _ => isQuote q
   | [] => false)

/-- Try the capture `([^"']+)["']` at offset `k + 9` of `afterMeta` (right
after `content=` and its quote): the greedy quote-free run, which must be
non-empty and be followed by a quote. -/
def ogTryKs (afterMeta : List Char) : List Nat → Option String
  | [] => none
  | k :: ks =>
    let capRest := afterMeta.drop (k + 9)
    let cap := capRest.takeWhile (fun c => !(isQuote c))
    if !cap.isEmpty &&
       (match capRest.drop cap.length with
        | c :: _ => isQuote c
        | [] => false)
    then some (String.mk cap)
    else ogTryKs afterMeta ks

/-- For each candidate offset of the `property=["']og:title["']` literal
(greedy order), try every later `content=["']` occurrence (greedy order). -/
def ogTryJs (afterMeta region : List Char) : List Nat → Option String
  | [] => none
  | j :: js =>
    let ks := ((List.range (region.length + 1)).filter
      (fun o => decide (j + 19 ≤ o) && contentQAt (region.drop o))).reverse
    match ogTryKs afterMeta ks with
    | some cap => some cap
    | none => ogTryJs afterMeta region js

/-- Match of
`<meta[^>]*property=["']og:title["'][^>]*content=["']([^"']+)["']`
(case sensitive) anchored at the head of `cs`.  Everything from `<meta` up to
the quote after `content=` must sit inside the `>`-free span following
`<meta`; the capture itself may contain `>`. -/
def ogTitleAt (cs : List Char) : Option String :=
  if startsWithL cs "<meta".toList false then
    let afterMeta := cs.drop 5
    let region := afterMeta.takeWhile (fun c => c ≠ '>')
    let js := ((List.range (region.length + 1)).filter
      (fun o => propOgAt (region.drop o))).reverse
    ogTryJs afterMeta region js
  else none

/-- Match of `["']size["']\s*:\s*["']?(\d+)["']?` anchored at the head of
`cs`. -/
def sizeAt (cs : List Char) : Option String :=
  match cs with
  | q :: r =>
    if isQuote q && startsWithL r "size".toList false then
      match r.drop 4 with
      | q2 :: r2 =>
        if isQuote q2 then
          match r2.dropWhile wsRe with
          | ':' :: r4 =>
            let r5 := (r4.dropWhile wsRe)
            let r6 := match r5 with
              | c :: tail => if isQuote c then tail else r5
              | [] => r5
            let ds := r6.takeWhile Char.isDigit
            if ds.isEmpty then none else some (String.mk ds)
          | _ => none
        else none
      | [] => none
    else none
  | [] => none

/-- The tail `["']\s*:\s*["']([^"']+)["']` shared by the meta download-URL
pattern: closing quote of the key, colon, opening quote, non-empty quote-free
capture, closing quote. -/
def quotedColonCap (r1 : List Char) : Option String :=
  match r1 with
  | q2 :: r2 =>
    if isQuote q2 then
      match r2.dropWhile wsRe with
      | ':' :: r4 =>
        match r4.dropWhile wsRe with
        | q3 :: r6 =>
          if isQuote q3 then
            let cap := r6.takeWhile (fun c => !(isQuote c))
            if !cap.isEmpty &&
               (match r6.drop cap.length with
                | c :: _ => isQuote c
                | [] => false)
            then some (String.mk cap)
            else none
          else none
        | [] => none
      | _ => none
    else none
  | [] => none

/-- Match of `["'](?:download_)?url["']\s*:\s*["']([^"']+)["']` anchored at
the head of `cs` (case sensitive).  The optional `download_` branch commits
exactly when the text continues with `download_url`, mirroring the regex
backtracking (the two alternatives start with different letters). -/
def metaUrlAt (cs : List Char) : Option String :=
  match cs with
  | q :: r =>
    if isQuote q then
      if startsWithL r "download_url".toList false then quotedColonCap (r.drop 12)
      else if startsWithL r "url".toList false then quotedColonCap (r.drop 3)
      else none
    else none
  | [] => none

/-- The tail `\s*[=:]\s*...` of the script-variable patterns: whitespace, `=`
or `:`, whitespace, then either a digit run (`(\d+)`) or a quoted non-empty
capture (`["']([^"']+)["']`). -/
def kvTail (strVal : Bool) (r : List Char) : Option String :=
  match r.dropWhile wsRe with
  | c :: r2 =>
    if c == '=' || c == ':' then
      let r3 := r2.dropWhile wsRe
      if strVal then
        match r3 with
        | q :: r4 =>
          if isQuote q then
            let cap := r4.takeWhile (fun c => !(isQuote c))
            if !cap.isEmpty &&
               (match r4.drop cap.length with
                | c2 :: _ => isQuote c2
                | [] => false)
            then some (String.mk cap)
            else none
          else none
        | [] => none
      else
        let ds := r3.takeWhile Char.isDigit
        if ds.isEmpty then none else some (String.mk ds)
    else none
  | [] => none

/-! ### Extraction strategies (source lines 86-157) -/

/-- Loop body of `_extract_from_json_ld` over the matches returned by
`re.findall`: a `json.JSONDecodeError` (parse failure) continues with the next
match, as do a non-dict value and a dict without a `"name"` key; a dict with a
`"name"` key returns the three-key dictionary — unless `name` or
`description` is not a string, in which case `.strip()` raises and the outer
`except` makes the whole function return `None`. -/
def jsonLdGo : List String → Option FileInfo
  | [] => none
  | m :: rest =>
    match parseJson m with
    | none => jsonLdGo rest
    | some (.jobj kvs) =>
      if objHasKey kvs "name" then
        match objGetD kvs "name" (.jstr ""), objGetD kvs "description" (.jstr "") with
        | .jstr nm, .jstr ds =>
          some { filename := some (.jstr (pyStrip nm)),
                 size := some (objGetD kvs "contentSize" .jnull),
                 description := some (.jstr (pyStrip ds)) }
        | _, _ => none
      else jsonLdGo rest
    | some _ => jsonLdGo rest

/-- Embedding of `TeraboxDownloader._extract_from_json_ld` (lines 86-107). -/
def extract_from_json_ld (html : String) : Option FileInfo :=
  jsonLdGo (findallWith jsonLdAt (html.length + 1) html.toList)

/-- Embedding of `TeraboxDownloader._extract_from_meta_tags` (lines 109-133):
og:title (percent-decoded and stripped) as filename, a quoted `size` number as
size (an `int`), a quoted `url`/`download_url` value as `direct_url`; returns
`None` when the dictionary stays empty. -/
def extract_from_meta_tags (html : String) : Option FileInfo :=
  let cs := html.toList
  let n := cs.length + 1
  let fn := searchWith ogTitleAt n cs
  let sz := searchWith sizeAt n cs
  let du := searchWith metaUrlAt n cs
  if fn.isNone && sz.isNone && du.isNone then none
  else
    some { filename := fn.map (fun t => .jstr (pyStrip (pyUnquote t))),
           size := sz.map (fun d => .jnum (Int.ofNat (digitsToNat d.toList))),
           direct_url := du.map .jstr }

/-- Embedding of `TeraboxDownloader._extract_from_scripts` (lines 135-157).
All four captures are stored as raw strings (`match.group(1)`), including the
size; the download URL is stored under the key `url`.  Patterns are compiled
with `re.IGNORECASE`. -/
def extract_from_scripts (html : String) : Option FileInfo :=
  let cs := html.toList
  let n := cs.length + 1
  let fn := searchWith
    (fun l => if startsWithL l "file_name".toList true then kvTail true (l.drop 9) else none) n cs
  let sz := searchWith
    (fun l => if startsWithL l "file_size".toList true then kvTail false (l.drop 9) else none) n cs
  let u := searchWith
    (fun l =>
      if startsWithL l "downloadurl".toList true then kvTail true (l.drop 11)
      else if startsWithL l "file_url".toList true then kvTail true (l.drop 8)
      else none) n cs
  let m5 := searchWith
    (fun l => if startsWithL l "file_md5".toList true then kvTail true (l.drop 8) else none) n cs
  if fn.isNone && sz.isNone && u.isNone && m5.isNone then none
  else
    some { filename := fn.map .jstr, size := sz.map .jstr,
           url := u.map .jstr, md5 := m5.map .jstr }

/-! ### The resolver (source lines 36-84 and 180-205) -/

/-- An HTTP response as the resolver sees it. -/
structure HttpResp where
  status : Nat
  body : String
deriving Repr, DecidableEq

/-- The network environment of one call: the outcome of the n-th GET request
issued during the call and of the n-th HEAD request.  `.error ()` models a
transport-level exception; for HEAD, `.ok v` carries the optional
`Content-Length` header value. -/
structure Net where
  get : Nat → Except Unit HttpResp
  head : Nat → Except Unit (Option Nat)

/-- The strategy cascade of `extract_file_info` (lines 51-56): JSON-LD first,
then meta tags, then script variables, stopping at the first non-`None`
result. -/
def extract_cascade (html : String) : Option FileInfo :=
  match extract_from_json_ld html with
  | some fi => some fi
  | none =>
    match extract_from_meta_tags html with
    | some fi => some fi
    | none => extract_from_scripts html

/-- Filename synthesis (lines 59-62): when the dictionary has no `filename`
key, store the placeholder built from the current Unix timestamp. -/
def synthName (ts : Nat) (fi : FileInfo) : FileInfo :=
  if fi.filename.isNone then
    { fi with filename := some (.jstr ("terabox_file_" ++ Nat.repr ts)) }
  else fi

/-- Lines 51-78 of `extract_file_info`: what happens to the fetched markup
after a successful GET — the cascade, the filename synthesis and the HEAD
size back-fill (lines 64-75; the bare `except: pass` swallows a HEAD failure
and a missing `Content-Length` header leaves the size absent). -/
def afterFetch (net : Net) (ts : Nat) (html : String) :
    Option FileInfo × Nat × Nat :=
  match extract_cascade html with
  | none => (none, 1, 0)
  | some fi0 =>
    let fi1 := synthName ts fi0
    if fi1.size.isNone && fi1.direct_url.isSome then
      match net.head 0 with
      | .error _ => (some fi1, 1, 1)
      | .ok none => (some fi1, 1, 1)
      | .ok (some n) => (some { fi1 with size := some (.jnum (Int.ofNat n)) }, 1, 1)
    else (some fi1, 1, 0)

/-- Embedding of `TeraboxDownloader.extract_file_info` (lines 36-84), with the
clock reading `ts` made explicit.  Returns the result together with the number
of GET and HEAD requests issued during the call.  `requests`'
`raise_for_status` raises exactly for statuses in `[400, 600)`; any exception
is caught by the outer `except` and turned into `None`. -/
def extract_file_info (net : Net) (ts : Nat) (url : String) :
    Option FileInfo × Nat × Nat :=
  if is_valid_terabox_url url then
    match net.get 0 with
    | .error _ => (none, 1, 0)
    | .ok resp =>
      if 400 ≤ resp.status ∧ resp.status < 600 then (none, 1, 0)
      else afterFetch net ts resp.body
  else (none, 0, 0)

/-- Head of a match of
`href=["'](https?://[^"']+?\.(?:mp4|avi|mkv|mp3|pdf|zip)[^"']*)["']`
(re.IGNORECASE): is there a recognized media extension at an offset at least
one character into the quote-free run? -/
def extDotAt (cs : List Char) : Bool :=
  match cs with
  | '.' :: r =>
    ["mp4", "avi", "mkv", "mp3", "pdf", "zip"].any
      (fun e => startsWithL r e.toList true)
  | _ => false

def hrefAt (cs : List Char) : Option (String × List Char) :=
  if startsWithL cs "href=".toList true then
    match cs.drop 5 with
    | q :: r =>
      if isQuote q then
        let pre :=
          if startsWithL r "https://".toList true then some 8
          else if startsWithL r "http://".toList true then some 7
          else none
        match pre with
        | some k =>
          let rest2 := r.drop k
          let run := rest2.takeWhile (fun c => !(isQuote c))
          match rest2.drop run.length with
          | q2 :: tail =>
            if isQuote q2 ∧
               (List.range (run.length + 1)).any
                 (fun n => decide (1 ≤ n) && extDotAt (run.drop n)) then
              some (String.mk (r.take k ++ run), tail)
            else none
          | [] => none
        | none => none
      else none
    | [] => none
  else none

/-- The shared tail `\s*=\s*["']([^"']+)["']`, returning the capture and the
rest after the closing quote. -/
def eqCapAt (r : List Char) : Option (String × List Char) :=
  match r.dropWhile wsRe with
  | '=' :: r2 =>
    match r2.dropWhile wsRe with
    | q :: r4 =>
      if isQuote q then
        let cap := r4.takeWhile (fun c => !(isQuote c))
        match r4.drop cap.length with
        | q2 :: tail =>
          if isQuote q2 && !cap.isEmpty then some (String.mk cap, tail) else none
        | [] => none
      else none
    | [] => none
  | _ => none

/-- Match of `downloadLink\s*=\s*["']([^"']+)["']` (re.IGNORECASE) anchored at
the head. -/
def dlLinkAt (cs : List Char) : Option (String × List Char) :=
  if startsWithL cs "downloadlink".toList true then eqCapAt (cs.drop 12) else none

/-- Match of `window\.location\.href\s*=\s*["']([^"']+)["']` (re.IGNORECASE)
anchored at the head. -/
def winLocAt (cs : List Char) : Option (String × List Char) :=
  if startsWithL cs "window.location.href".toList true then eqCapAt (cs.drop 20)
  else none

/-- The match filter of `get_direct_download_url` (lines 197-199): first
non-empty match containing `http` or `//`. -/
def firstGood : List String → Option String
  | [] => none
  | s :: r =>
    if !(s == "") && (strContains s "http" || strContains s "//") then some s
    else firstGood r

/-- The fallback page scan of `get_direct_download_url` (lines 188-199): the
three patterns in order, each via `re.findall`, returning the first acceptable
match. -/
def scanDownload (body : String) : Option Json :=
  let cs := body.toList
  let n := cs.length + 1
  match firstGood (findallWith hrefAt n cs) with
  | some s => some (.jstr s)
  | none =>
    match firstGood (findallWith dlLinkAt n cs) with
    | some s => some (.jstr s)
    | none => (firstGood (findallWith winLocAt n cs)).map .jstr

/-- Embedding of `TeraboxDownloader.get_direct_download_url` (lines 180-205):
first a full `extract_file_info` call; if its dictionary has a `direct_url`
key that value is returned, otherwise a second GET of the share URL is scanned
with the three download patterns (its status is never checked); a transport
error there is caught and yields `None`. -/
def gdduScan (net : Net) (g h : Nat) : Option Json × Nat × Nat :=
  match net.get g with
  | .error _ => (none, g + 1, h)
  | .ok resp => (scanDownload resp.body, g + 1, h)

def get_direct_download_url (net : Net) (ts : Nat) (url : String) :
    Option Json × Nat × Nat :=
  match extract_file_info net ts url with
  | (some fi, g, h) =>
    match fi.direct_url with
    | some v => (some v, g, h)
    | none => gdduScan net g h
  | (none, g, h) => gdduScan net g h

/-! ### The caller-side size gate (`bot.py`, lines 190-219, and `config.py`) -/

/-- `MAX_FILE_SIZE` from `config.py` line 12 — the default 2 GiB used when the
environment variable is unset. -/
def MAX_FILE_SIZE : Int := 2147483648

/-- What `handle_link` does with a resolver result, as far as the size gate is
concerned. -/
inductive LinkOutcome where
  | unableToProcess
  | fileTooLarge
  | offerDownload (fi : FileInfo)
  | errorReply

/-- Python `>` between a dictionary value and an int: defined for numbers and
booleans, a `TypeError` otherwise (caught by the handler's outer `except`). -/
def pyGtInt (v : Json) (m : Int) : Except Unit Bool :=
  match v with
  | .jnum n => .ok (decide (m < n))
  | .jbool b => .ok (decide (m < (if b then (1 : Int) else 0)))
  | _ => .error ()

/-- Embedding of the size check in `TeraboxDownloadBot.handle_link`
(lines 190-219): `None` from the resolver gives the unable-to-process reply;
`file_info.get('size', 0) > MAX_FILE_SIZE` gives the file-too-large reply and
returns before the download offer is ever created; otherwise the download
offer (carrying the descriptor) is presented.  A `TypeError` from the
comparison is caught by the surrounding `except` (line 254). -/
def handle_link_size_check (maxSize : Int) (fiOpt : Option FileInfo) : LinkOutcome :=
  match fiOpt with
  | none => .unableToProcess
  | some fi =>
    match pyGtInt (fi.size.getD (.jnum 0)) maxSize with
    | .error _ => .errorReply
    | .ok true => .fileTooLarge
    | .ok false => .offerDownload fi

/-! ### Concrete inputs used by witnesses and counterexamples -/

/-- A valid share URL. -/
def urlA : String := "https://terabox.com/s/abc123"

/-- The share URL of the spec's filename-synthesis scenario (path segment
`AbC123`). -/
def urlB : String := "https://terabox.com/s/AbC123"

/-- Markup carrying the JSON-LD block of the spec's end-to-end scenario 1. -/
def html5 : String :=
  "<script type=\"application/ld+json\">\x7b\"name\":\"movie.mp4\",\"contentSize\":104857600\x7d</script>"

/-- Markup with both an og:title meta tag (filename `b.mp4`) and a
script-variable assignment (filename `a.mp4`). -/
def htmlMix : String :=
  "<meta property=\"og:title\" content=\"b.mp4\"> var file_name = \"a.mp4\""

/-- Markup from which only the meta-tag strategy extracts anything, namely a
size and no filename. -/
def htmlSize : String := "\"size\": 42"

/-- Markup from which only the meta-tag strategy extracts anything, namely a
direct download URL and no size. -/
def htmlUrl : String := "\"url\": \"http://h/f\""

/-- Markup whose only signal is a script-variable download URL. -/
def htmlScriptUrl : String := "var file_url = \"http://x/y\""

/-- Markup for the second-fetch fallback scan of `get_direct_download_url`. -/
def htmlDl : String := "downloadLink = \"http://d/z\""

/-- Markup whose only signal is an og:title filename. -/
def htmlOg : String := "<meta property=\"og:title\" content=\"b.mp4\">"

def net5 : Net := { get := fun _ => .ok ⟨200, html5⟩, head := fun _ => .error () }

def net1w : Net := { get := fun _ => .ok ⟨250, html5⟩, head := fun _ => .error () }

def net7 : Net := { get := fun _ => .ok ⟨303, html5⟩, head := fun _ => .error () }

def net7e : Net := { get := fun _ => .error (), head := fun _ => .error () }

def netB : Net := { get := fun _ => .ok ⟨200, htmlSize⟩, head := fun _ => .error () }

def netC : Net := { get := fun _ => .ok ⟨200, htmlUrl⟩, head := fun _ => .error () }

def netMix : Net := { get := fun _ => .ok ⟨200, htmlMix⟩, head := fun _ => .error () }

def netOg : Net := { get := fun _ => .ok ⟨200, htmlOg⟩, head := fun _ => .error () }

def net10 : Net :=
  { get := fun n => if n == 0 then .ok ⟨200, htmlScriptUrl⟩ else .ok ⟨200, htmlDl⟩,
    head := fun _ => .error () }

/-- The filename of a resolver result, as a plain string (observation used to
compare descriptors without an equality instance on `Json`). -/
def filenameString (r : Option FileInfo) : Option String :=
  match r with
  | some fi =>
    match fi.filename with
    | some (.jstr s) => some s
    | _ => none
  | none => none

/-! ### Helper lemmas -/

theorem synthName_size (ts : Nat) (fi : FileInfo) : (synthName ts fi).size = fi.size := by
  unfold synthName; split <;> rfl

theorem synthName_direct_url (ts : Nat) (fi : FileInfo) :
    (synthName ts fi).direct_url = fi.direct_url := by
  unfold synthName; split <;> rfl

theorem synthName_url (ts : Nat) (fi : FileInfo) : (synthName ts fi).url = fi.url := by
  unfold synthName; split <;> rfl

theorem synthName_filename_isSome (ts : Nat) (fi : FileInfo) :
    ((synthName ts fi).filename).isSome = true := by
  unfold synthName
  split
  · rfl
  · next h => cases hf : fi.filename with
      | none => rw [hf] at h; exact absurd rfl h
      | some v => simp [hf]

theorem synthName_of_isSome (ts : Nat) (fi : FileInfo) (h : fi.filename.isSome = true) :
    synthName ts fi = fi := by
  unfold synthName
  split
  · next hn =>
    cases hf : fi.filename with
    | none => rw [hf] at h; exact absurd h (by simp)
    | some v => rw [hf] at hn; exact absurd hn (by simp)
  · rfl

theorem synthName_of_none (ts : Nat) (fi : FileInfo) (h : fi.filename = none) :
    (synthName ts fi).filename = some (.jstr ("terabox_file_" ++ Nat.repr ts)) := by
  unfold synthName
  split
  · rfl
  · next hn => rw [h] at hn; exact absurd rfl hn

/-- Every dictionary produced by the JSON-LD strategy has a `filename` key and
a `size` key (the latter possibly holding `None`) and no `direct_url` key. -/
theorem jsonLdGo_shape (ms : List String) :
    ∀ fi, jsonLdGo ms = some fi →
      fi.filename.isSome = true ∧ fi.size.isSome = true ∧ fi.direct_url = none := by
  induction ms with
  | nil => intro fi h; simp [jsonLdGo] at h
  | cons m rest ih =>
    intro fi h
    simp only [jsonLdGo] at h
    split at h
    · exact ih fi h
    · split at h
      · split at h
        · injection h with h2
          subst h2
          exact ⟨rfl, rfl, rfl⟩
        · exact absurd h (by simp)
      · exact ih fi h
    · exact ih fi h

theorem json_ld_shape (html : String) (fi : FileInfo)
    (h : extract_from_json_ld html = some fi) :
    fi.filename.isSome = true ∧ fi.size.isSome = true ∧ fi.direct_url = none := by
  unfold extract_from_json_ld at h
  exact jsonLdGo_shape _ fi h

/-- The script-variable strategy never creates a `direct_url` key. -/
theorem scripts_no_direct_url (html : String) (fi : FileInfo)
    (h : extract_from_scripts html = some fi) : fi.direct_url = none := by
  simp only [extract_from_scripts] at h
  split at h
  · exact absurd h (by simp)
  · injection h with h2
    subst h2
    rfl

theorem cascade_of_json_ld (html : String) (fi : FileInfo)
    (h : extract_from_json_ld html = some fi) : extract_cascade html = some fi := by
  unfold extract_cascade
  rw [h]

theorem cascade_of_scripts (html : String)
    (hj : extract_from_json_ld html = none) (hm : extract_from_meta_tags html = none) :
    extract_cascade html = extract_from_scripts html := by
  unfold extract_cascade
  rw [hj, hm]

/-- After a validated URL and a fetch with a non-raising status, the call is
exactly the post-fetch processing of the body. -/
theorem extract_eq_of (net : Net) (ts : Nat) (url : String) (st : Nat) (html : String)
    (hvalid : is_valid_terabox_url url = true)
    (hget : net.get 0 = .ok ⟨st, html⟩) (hst : st < 400) :
    extract_file_info net ts url = afterFetch net ts html := by
  unfold extract_file_info
  rw [hvalid, if_pos rfl, hget]
  dsimp only
  exact if_neg (by omega)

/-! ### Claim theorems -/

/-- C2 (counterexample): the claim says only the exact allow-listed hosts and
their `www.`-prefixed variants are accepted.  But `is_valid_terabox_url`
accepts the host `evilterabox.com`, which is neither an allow-listed domain
nor `www.` followed by one — the source uses `str.endswith`, an unanchored
suffix match. -/
theorem c2_counterexample :
    pyUrlparse "https://evilterabox.com/s/x" = .ok ("evilterabox.com", "/s/x")
    ∧ is_valid_terabox_url "https://evilterabox.com/s/x" = true
    ∧ validDomains.all
        (fun d => !("evilterabox.com" == d) && !("evilterabox.com" == "www." ++ d)) = true :=
  ⟨rfl, rfl, rfl⟩

/-- C2 (amended): whenever the lowercased netloc of the parsed URL does not
even have one of the allow-listed domains as a suffix, `is_valid_terabox_url`
returns false.  (The allow-list check is a suffix match, so hosts merely
ending in an allow-listed domain are accepted as well.) -/
theorem c2_domain_suffix_amended (s netloc path : String)
    (hp : pyUrlparse s = .ok (netloc, path))
    (hno : validDomains.any (fun d => strEndsWith (strLower netloc) d) = false) :
    is_valid_terabox_url s = false := by
  unfold is_valid_terabox_url
  rw [hp]
  dsimp only
  rw [hno]
  rfl

/-- C2 (witness for the amended theorem): `example.com` does not end with any
allow-listed domain, so the URL is rejected. -/
theorem c2_witness : is_valid_terabox_url "https://example.com/s/x" = false :=
  c2_domain_suffix_amended "https://example.com/s/x" "example.com" "/s/x" rfl rfl

/-- C4: every string that fails the classifier's domain allow-list check
(suffix match against the allow-list, on the lowercased netloc) or whose path
contains neither "/s/" nor "/sharing/" is rejected, and a URL-parse failure is
also rejected; the function is total, so it never raises to the caller. -/
theorem c4_rejects_invalid (s : String)
    (h : match pyUrlparse s with
         | .error _ => True
         | .ok (netloc, path) =>
           validDomains.any (fun d => strEndsWith (strLower netloc) d) = false
           ∨ (strContains path "/s/" = false ∧ strContains path "/sharing/" = false)) :
    is_valid_terabox_url s = false := by
  unfold is_valid_terabox_url
  cases hp : pyUrlparse s with
  | error e => rfl
  | ok pr =>
    obtain ⟨nl, p⟩ := pr
    rw [hp] at h
    dsimp only
    cases h with
    | inl h1 => rw [h1]; rfl
    | inr h2 =>
      obtain ⟨h2a, h2b⟩ := h2
      split
      · rw [h2a, h2b]; rfl
      · rfl

/-- C4 (witness): an allow-listed domain with an unrecognized path (the
service homepage shape) is rejected. -/
theorem c4_witness : is_valid_terabox_url "https://terabox.com/home" = false :=
  c4_rejects_invalid "https://terabox.com/home" (Or.inr ⟨rfl, rfl⟩)

/-- C5: for the markup of end-to-end scenario 1 the resolver produces the
descriptor with filename "movie.mp4" and size 104857600 (one GET, no
HEAD). -/
theorem c5_jsonld_scenario :
    extract_file_info net5 1 urlA =
      (some { filename := some (.jstr "movie.mp4"), size := some (.jnum 104857600),
              description := some (.jstr "") }, 1, 0) := rfl

/-- C7 (counterexample): the claim says any non-2xx status yields a failure
result.  But `raise_for_status` only raises for statuses in `[400, 600)`: on
a final status of 303 whose body carries a JSON-LD block the resolver returns
a full descriptor, not `None`. -/
theorem c7_counterexample :
    net7.get 0 = .ok ⟨303, html5⟩
    ∧ (extract_file_info net7 1 urlA).1 =
        some { filename := some (.jstr "movie.mp4"), size := some (.jnum 104857600),
               description := some (.jstr "") } :=
  ⟨rfl, rfl⟩

/-- C7 (amended): for every resolve call on a validated URL whose page fetch
raises a transport error or returns a status in `[400, 600)`, the call
returns `None`, makes exactly one GET and no HEAD (no retry), and, being a
total function, raises nothing to the caller. -/
theorem c7_fetch_failure_amended (net : Net) (ts : Nat) (url : String)
    (hvalid : is_valid_terabox_url url = true)
    (h : net.get 0 = .error ()
         ∨ ∃ st body, net.get 0 = .ok ⟨st, body⟩ ∧ 400 ≤ st ∧ st < 600) :
    extract_file_info net ts url = (none, 1, 0) := by
  unfold extract_file_info
  rw [hvalid, if_pos rfl]
  cases h with
  | inl he => rw [he]
  | inr hok =>
    obtain ⟨st, body, hg, h4, h6⟩ := hok
    rw [hg]
    dsimp only
    rw [if_pos ⟨h4, h6⟩]

/-- C7 (witness): a transport error on the page fetch gives `(None, 1 GET,
0 HEAD)`. -/
theorem c7_witness : extract_file_info net7e 1 urlA = (none, 1, 0) :=
  c7_fetch_failure_amended net7e 1 urlA rfl (Or.inl rfl)

/-- C8: a descriptor whose numeric size exceeds the configured ceiling makes
the handler report the file-too-large failure, and the download offer (the
only path that starts a byte transfer) is never produced. -/
theorem c8_file_too_large (maxSize : Int) (fi : FileInfo) (n : Int)
    (hs : fi.size = some (.jnum n)) (hlt : maxSize < n) :
    handle_link_size_check maxSize (some fi) = .fileTooLarge
    ∧ ∀ d, handle_link_size_check maxSize (some fi) ≠ .offerDownload d := by
  have hmain : handle_link_size_check maxSize (some fi) = .fileTooLarge := by
    unfold handle_link_size_check
    dsimp only
    rw [hs]
    simp [pyGtInt, hlt]
  exact ⟨hmain, fun d hcontra => by rw [hmain] at hcontra; exact LinkOutcome.noConfusion hcontra⟩

/-- C8 (witness): the spec's scenario 3 — size 3 000 000 000 against the
default 2 147 483 648 ceiling. -/
theorem c8_witness :
    handle_link_size_check MAX_FILE_SIZE (some { size := some (.jnum 3000000000) }) =
      .fileTooLarge :=
  (c8_file_too_large MAX_FILE_SIZE { size := some (.jnum 3000000000) } 3000000000
    rfl (by decide)).1

/-- C1 (counterexample): the claim orders the embedded page-state (script
variable) strategy before the metadata-tag strategy.  On markup carrying both
a script-variable filename `a.mp4` and an og:title filename `b.mp4`, the
script strategy indeed extracts `a.mp4`, yet the resolver's descriptor holds
`b.mp4`: the source tries meta tags before script variables. -/
theorem c1_counterexample :
    extract_from_scripts htmlMix = some { filename := some (.jstr "a.mp4") }
    ∧ (extract_file_info netMix 1 urlA).1 = some { filename := some (.jstr "b.mp4") }
    ∧ filenameString (extract_file_info netMix 1 urlA).1 ≠ some "a.mp4" :=
  ⟨rfl, rfl, by decide⟩

/-- C1 (amended): the cascade applies exactly three strategies in the fixed
order JSON-LD, meta tags, script variables, stopping at the first non-empty
dictionary.  In particular a successful JSON-LD extraction is returned to the
caller verbatim (it always carries a filename and a size key, so neither the
filename synthesis nor the size back-fill alters it), and when JSON-LD fails
the cascade is the meta-tag result, falling back to the script result. -/
theorem c1_cascade_order_amended (html : String) :
    (∀ i, extract_from_json_ld html = some i →
      ∀ (net : Net) (ts : Nat) (url : String) (st : Nat),
        is_valid_terabox_url url = true → net.get 0 = .ok ⟨st, html⟩ → st < 400 →
        extract_file_info net ts url = (some i, 1, 0))
    ∧ (extract_from_json_ld html = none →
        extract_cascade html =
          (extract_from_meta_tags html).orElse (fun _ => extract_from_scripts html)) := by
  constructor
  · intro i hj net ts url st hv hg hs
    obtain ⟨hf, hsz, _⟩ := json_ld_shape html i hj
    rw [extract_eq_of net ts url st html hv hg hs]
    unfold afterFetch
    rw [cascade_of_json_ld html i hj]
    dsimp only
    rw [synthName_of_isSome ts i hf]
    have hcond : (i.size.isNone && i.direct_url.isSome) = false := by
      cases h : i.size with
      | none => rw [h] at hsz; exact absurd hsz (by simp)
      | some v => simp [Option.isNone]
    rw [hcond]
    rfl
  · intro hj
    unfold extract_cascade
    rw [hj]
    cases hm : extract_from_meta_tags html <;> simp [Option.orElse]

/-- C1 (witness for the amended theorem): on the JSON-LD markup the resolver
returns the JSON-LD dictionary unchanged. -/
theorem c1_witness :
    extract_file_info net1w 9 urlA =
      (some { filename := some (.jstr "movie.mp4"), size := some (.jnum 104857600),
              description := some (.jstr "") }, 1, 0) :=
  (c1_cascade_order_amended html5).1
    { filename := some (.jstr "movie.mp4"), size := some (.jnum 104857600),
      description := some (.jstr "") }
    rfl net1w 9 urlA 250 rfl rfl (by decide)

/-- C3 (counterexample): the claim says a missing filename is synthesized
from the URL's last path segment (`AbC123`).  On markup yielding only a size,
the resolver instead stores the timestamp placeholder `terabox_file_7`; the
URL path is never consulted. -/
theorem c3_counterexample :
    (extract_file_info netB 7 urlB).1 =
      some { filename := some (.jstr "terabox_file_7"), size := some (.jnum 42) }
    ∧ filenameString (extract_file_info netB 7 urlB).1 ≠ some "AbC123" :=
  ⟨rfl, by decide⟩

/-- C3 (amended): every descriptor returned to the caller has a filename; when
no strategy yielded one, that filename is the timestamp placeholder
`terabox_file_<ts>` (the URL path plays no role in the synthesis). -/
theorem c3_filename_amended (net : Net) (ts : Nat) (url : String) (d : FileInfo)
    (hres : (extract_file_info net ts url).1 = some d) :
    d.filename.isSome = true
    ∧ (∀ (st : Nat) (html : String) (fi0 : FileInfo),
        is_valid_terabox_url url = true →
        net.get 0 = .ok ⟨st, html⟩ → st < 400 →
        extract_cascade html = some fi0 → fi0.filename = none →
        d.filename = some (.jstr ("terabox_file_" ++ Nat.repr ts))) := by
  constructor
  · unfold extract_file_info at hres
    split at hres
    · split at hres
      · exact absurd hres (by simp)
      · split at hres
        · exact absurd hres (by simp)
        · unfold afterFetch at hres
          split at hres
          · exact absurd hres (by simp)
          · next fi0 heq =>
            dsimp only at hres
            split at hres
            · split at hres
              · injection hres with h2; subst h2; exact synthName_filename_isSome ts fi0
              · injection hres with h2; subst h2; exact synthName_filename_isSome ts fi0
              · injection hres with h2; subst h2
                show ((synthName ts fi0).filename).isSome = true
                exact synthName_filename_isSome ts fi0
            · injection hres with h2; subst h2; exact synthName_filename_isSome ts fi0
    · exact absurd hres (by simp)
  · intro st html fi0 hv hg hs hcas hnone
    rw [extract_eq_of net ts url st html hv hg hs] at hres
    unfold afterFetch at hres
    rw [hcas] at hres
    dsimp only at hres
    split at hres
    · split at hres
      · injection hres with h2; subst h2; exact synthName_of_none ts fi0 hnone
      · injection hres with h2; subst h2; exact synthName_of_none ts fi0 hnone
      · injection hres with h2; subst h2
        show ({ synthName ts fi0 with size := _ } : FileInfo).filename = _
        show (synthName ts fi0).filename = _
        exact synthName_of_none ts fi0 hnone
    · injection hres with h2; subst h2; exact synthName_of_none ts fi0 hnone

/-- C3 (witness for the amended theorem): on the size-only markup the
descriptor's filename is present and equals the placeholder. -/
theorem c3_witness :
    (extract_file_info netB 8 urlA).1 =
      some { filename := some (.jstr "terabox_file_8"), size := some (.jnum 42) }
    ∧ ({ filename := some (.jstr "terabox_file_8"), size := some (.jnum 42) } : FileInfo).filename
        = some (.jstr ("terabox_file_" ++ Nat.repr 8)) :=
  ⟨rfl,
   (c3_filename_amended netB 8 urlA
     { filename := some (.jstr "terabox_file_8"), size := some (.jnum 42) } rfl).2
     200 htmlSize { size := some (.jnum 42) } rfl rfl (by decide) rfl rfl⟩

/-- C6: the HEAD size back-fill runs if and only if the extracted dictionary
has a `direct_url` key and no `size` key; a size already extracted from the
markup is never overwritten (the HEAD is not even issued); and when the
back-fill request fails the descriptor is returned unchanged apart from the
filename synthesis — size stays unknown and the call still succeeds. -/
theorem c6_size_backfill (net : Net) (ts : Nat) (url : String) (st : Nat)
    (html : String) (fi0 : FileInfo)
    (hv : is_valid_terabox_url url = true)
    (hg : net.get 0 = .ok ⟨st, html⟩) (hs : st < 400)
    (hcas : extract_cascade html = some fi0) :
    ((extract_file_info net ts url).2.2 =
      (if fi0.size.isNone && fi0.direct_url.isSome then 1 else 0))
    ∧ (∀ v, fi0.size = some v →
        (extract_file_info net ts url).1 = some (synthName ts fi0)
        ∧ (synthName ts fi0).size = some v)
    ∧ (fi0.size = none → net.head 0 = .error () →
        (extract_file_info net ts url).1 = some (synthName ts fi0)) := by
  rw [extract_eq_of net ts url st html hv hg hs]
  unfold afterFetch
  rw [hcas]
  dsimp only
  rw [show ((synthName ts fi0).size.isNone && (synthName ts fi0).direct_url.isSome)
        = (fi0.size.isNone && fi0.direct_url.isSome) by
      rw [synthName_size, synthName_direct_url]]
  refine ⟨?_, ?_, ?_⟩
  · split
    · cases hh : net.head 0 with
      | error e => rfl
      | ok v => cases v <;> rfl
    · rfl
  · intro v hv0
    have hcond : (fi0.size.isNone && fi0.direct_url.isSome) = false := by
      rw [hv0]; rfl
    rw [hcond]
    exact ⟨rfl, by rw [synthName_size, hv0]⟩
  · intro hnone hherr
    cases hcond : (fi0.size.isNone && fi0.direct_url.isSome) with
    | false => rfl
    | true => rw [hherr]; rfl

/-- C6 (witness): markup giving a `direct_url` and no size triggers exactly
one HEAD; the HEAD failing, the descriptor keeps no size and is still
returned. -/
theorem c6_witness :
    (extract_file_info netC 3 urlA).2.2 = 1
    ∧ (extract_file_info netC 3 urlA).1 =
        some (synthName 3 { direct_url := some (.jstr "http://h/f") }) := by
  have h := c6_size_backfill netC 3 urlA 200 htmlUrl
    { direct_url := some (.jstr "http://h/f") } rfl rfl (by decide) rfl
  exact ⟨h.1.trans (by rfl), h.2.2 rfl rfl⟩

/-- C9 (counterexample): the claim says two resolve calls seeing the same
HTTP responses return equal descriptors.  With identical responses but clock
readings 1 and 2 on filename-less markup, the two descriptors differ (the
timestamp placeholder differs). -/
theorem c9_counterexample :
    filenameString (extract_file_info netB 1 urlA).1 = some "terabox_file_1"
    ∧ filenameString (extract_file_info netB 2 urlA).1 = some "terabox_file_2"
    ∧ (extract_file_info netB 1 urlA).1 ≠ (extract_file_info netB 2 urlA).1 := by
  refine ⟨rfl, rfl, fun hcontra => ?_⟩
  have hne : filenameString (extract_file_info netB 1 urlA).1 ≠
      filenameString (extract_file_info netB 2 urlA).1 := by decide
  exact hne (congrArg filenameString hcontra)

/-- C9 (amended): the resolver keeps no state across calls — each call is a
pure function of the URL, the HTTP responses and the clock reading, so two
calls given the same responses agree whenever the markup itself supplies a
filename; only the timestamp placeholder for filename-less markup can differ
between calls. -/
theorem c9_stateless_amended (net : Net) (ts1 ts2 : Nat) (url : String) (st : Nat)
    (html : String) (fi0 : FileInfo)
    (hv : is_valid_terabox_url url = true)
    (hg : net.get 0 = .ok ⟨st, html⟩) (hs : st < 400)
    (hcas : extract_cascade html = some fi0) (hf : fi0.filename.isSome = true) :
    extract_file_info net ts1 url = extract_file_info net ts2 url := by
  rw [extract_eq_of net ts1 url st html hv hg hs,
      extract_eq_of net ts2 url st html hv hg hs]
  unfold afterFetch
  rw [hcas]
  dsimp only
  rw [synthName_of_isSome ts1 fi0 hf, synthName_of_isSome ts2 fi0 hf]

/-- C9 (witness): on markup carrying an og:title filename, calls at clock
readings 1 and 2 agree. -/
theorem c9_witness :
    extract_file_info netOg 1 urlA = extract_file_info netOg 2 urlA :=
  c9_stateless_amended netOg 1 2 urlA 200 htmlOg
    { filename := some (.jstr "b.mp4") } rfl rfl (by decide) rfl rfl

/-- C10: when only the script-variable strategy matches and it found a
download URL, that URL sits under the `url` key and the `direct_url` key is
absent; hence the size back-fill never triggers (no HEAD is issued) and
`get_direct_download_url` cannot return the URL from the descriptor branch —
it issues a second GET and returns whatever the pattern scan of that page
yields. -/
theorem c10_scripts_url_key (html : String) (fi : FileInfo) (net : Net) (ts : Nat)
    (url : String) (st st2 : Nat) (body2 : String)
    (hv : is_valid_terabox_url url = true)
    (hg : net.get 0 = .ok ⟨st, html⟩) (hs : st < 400)
    (hj : extract_from_json_ld html = none)
    (hm : extract_from_meta_tags html = none)
    (hsc : extract_from_scripts html = some fi)
    (hu : fi.url.isSome = true) :
    fi.direct_url = none
    ∧ extract_file_info net ts url = (some (synthName ts fi), 1, 0)
    ∧ (net.get 1 = .ok ⟨st2, body2⟩ →
        get_direct_download_url net ts url = (scanDownload body2, 2, 0)) := by
  have hd : fi.direct_url = none := scripts_no_direct_url html fi hsc
  have hcas : extract_cascade html = some fi := by
    rw [cascade_of_scripts html hj hm, hsc]
  have hext : extract_file_info net ts url = (some (synthName ts fi), 1, 0) := by
    rw [extract_eq_of net ts url st html hv hg hs]
    unfold afterFetch
    rw [hcas]
    dsimp only
    have hcond : ((synthName ts fi).size.isNone && (synthName ts fi).direct_url.isSome)
        = false := by
      rw [synthName_direct_url, hd]
      cases hsz : ((synthName ts fi).size.isNone) <;> rfl
    rw [hcond]
    rfl
  refine ⟨hd, hext, fun hg2 => ?_⟩
  unfold get_direct_download_url
  rw [hext]
  dsimp only
  rw [synthName_direct_url, hd]
  unfold gdduScan
  rw [hg2]

/-- C10 (witness): markup whose only signal is `file_url` gives a descriptor
with the URL under `url`, no HEAD, and the direct-URL lookup falls through to
the second fetch whose `downloadLink` assignment is returned. -/
theorem c10_witness :
    extract_file_info net10 4 urlA =
      (some { filename := some (.jstr "terabox_file_4"),
              url := some (.jstr "http://x/y") }, 1, 0)
    ∧ get_direct_download_url net10 4 urlA = (some (.jstr "http://d/z"), 2, 0) := by
  have h := c10_scripts_url_key htmlScriptUrl { url := some (.jstr "http://x/y") }
    net10 4 urlA 200 200 htmlDl rfl rfl (by decide) rfl rfl rfl rfl
  exact ⟨h.2.1.trans (by rfl), (h.2.2 rfl).trans (by rfl)⟩

end Tbox
